import Mathlib

/-!
# k9s `internal/dao/log_item.go`: log items and their rendering

A shallow embedding of `LogItem`, `ConvertTimeZone` and `LogItem.Render`, together with
the part of Go's standard packages `bytes` and `time` that these functions call.

* Go `string` and `[]byte` values are byte sequences: `List UInt8`.
* Go `int` values are `Int` (no arithmetic here comes near the machine range).
* A `*time.Location` that may be `nil` is an `Option Location`.
* A slice expression that would abort the program when out of range returns `none`.
* `*bytes.Buffer` is the byte sequence written so far; `Render` maps the old content to
  the new one.
-/

namespace dao

/-- Byte sequences: the content of a Go `string` or `[]byte`. -/
abbrev ByteSeq := List UInt8

/-- The bytes of an ASCII string literal. -/
def str (s : String) : ByteSeq := s.toList.map (fun c => UInt8.ofNat c.toNat)

/-- The space byte. -/
def SP : UInt8 := 32

/-! ## Package `bytes` -/

/-- Go `bytes.Index(s, sep)`: index of the first occurrence of `sep` in `s` counted from
position `i`, or `-1` when there is none. -/
def indexFrom (sep : ByteSeq) : ByteSeq → Nat → Int
  | [], i => if sep.isPrefixOf [] then (i : Int) else -1
  | c :: t, i => if sep.isPrefixOf (c :: t) then (i : Int) else indexFrom sep t (i + 1)

/-- Go `bytes.Index(s, sep)`. -/
def Index (s sep : ByteSeq) : Int := indexFrom sep s 0

/-- Go `bytes.Repeat(b, count)`; aborts on a negative count. -/
def Repeat (b : ByteSeq) (count : Int) : Option ByteSeq :=
  if count < 0 then none else some (List.flatten (List.replicate count.toNat b))

/-- Go slice expression `s[:hi]`; aborts unless `0 ≤ hi ≤ len(s)`. -/
def sliceTo (s : ByteSeq) (hi : Int) : Option ByteSeq :=
  if 0 ≤ hi ∧ hi ≤ (s.length : Int) then some (s.take hi.toNat) else none

/-- Go slice expression `s[lo:]`; aborts unless `0 ≤ lo ≤ len(s)`. -/
def sliceFrom (s : ByteSeq) (lo : Int) : Option ByteSeq :=
  if 0 ≤ lo ∧ lo ≤ (s.length : Int) then some (s.drop lo.toNat) else none

/-- Content of a `bytes.Buffer`. -/
abbrev Buffer := ByteSeq

/-- Go `(*bytes.Buffer).WriteString`. -/
def WriteString (bb : Buffer) (s : ByteSeq) : Buffer := bb ++ s

/-- Go `(*bytes.Buffer).Write`. -/
def Write (bb : Buffer) (p : ByteSeq) : Buffer := bb ++ p

/-! ## Package `time`

The two library calls of `ConvertTimeZone` are `time.Parse(time.RFC3339Nano, ·)` and
`Time.In(tz).Format(RFC3339NanoTrailingZeroes)`.  Both are modelled on the proleptic
Gregorian calendar with Unix seconds as the instant. -/

/-- Model of `time.Location`: the offset east of UTC, in seconds, in force at an instant
given in Unix seconds (the result of the library's zone lookup). -/
structure Location where
  lookup : Int → Int

/-- Go `time.UTC`. -/
def UTC : Location := ⟨fun _ => 0⟩

/-- Go `time.FixedZone(name, offset)`. -/
def FixedZone (offset : Int) : Location := ⟨fun _ => offset⟩

/-- Model of `time.Time`: Unix seconds, nanoseconds within the second, location. -/
structure Time where
  unix : Int
  nsec : Nat
  loc : Location

/-- Go `Time.In(loc)`: same instant, other location. -/
def Time.In (t : Time) (loc : Location) : Time := { t with loc := loc }

/-- Go `isLeap`. -/
def isLeap (year : Int) : Bool :=
  year % 4 = 0 && (year % 100 ≠ 0 || year % 400 = 0)

/-- Go `daysBefore`: days in a non-leap year before month `m + 1` starts. -/
def daysBefore (m : Int) : Int :=
  if m ≤ 0 then 0 else if m = 1 then 31 else if m = 2 then 59 else if m = 3 then 90
  else if m = 4 then 120 else if m = 5 then 151 else if m = 6 then 181
  else if m = 7 then 212 else if m = 8 then 243 else if m = 9 then 273
  else if m = 10 then 304 else if m = 11 then 334 else 365

/-- Go `daysIn(m, year)`. -/
def daysIn (m : Int) (year : Int) : Int :=
  if m = 2 ∧ isLeap year = true then 29 else daysBefore m - daysBefore (m - 1)

/-- Days from 1970-01-01 to January 1st of `year`. -/
def daysSinceEpoch (year : Int) : Int :=
  365 * (year - 1) + (year - 1) / 4 - (year - 1) / 100 + (year - 1) / 400 - 719162

/-- Go `time.Date(year, month, day, hour, min, sec, nsec, UTC)` for fields in range. -/
def Date (year month day hour min sec : Int) (nsec : Nat) : Time :=
  let d := daysSinceEpoch year + daysBefore (month - 1)
    + (if isLeap year = true ∧ 3 ≤ month then 1 else 0) + (day - 1)
  { unix := d * 86400 + hour * 3600 + min * 60 + sec, nsec := nsec, loc := UTC }

/-- Calendar date (year, month, day) of the day that lies `z` days after 1970-01-01. -/
def civil (z : Int) : Int × Int × Int :=
  let z := z + 719468
  let era := z / 146097
  let doe := z - era * 146097
  let yoe := (doe - doe / 1460 + doe / 36524 - doe / 146096) / 365
  let doy := doe - (365 * yoe + yoe / 4 - yoe / 100)
  let mp := (5 * doy + 2) / 153
  let d := doy - (153 * mp + 2) / 5 + 1
  let m := if mp < 10 then mp + 3 else mp - 9
  (if m ≤ 2 then yoe + era * 400 + 1 else yoe + era * 400, m, d)

/-- Offset in force for `t` in its location. -/
def Time.offset (t : Time) : Int := t.loc.lookup t.unix

/-- Seconds since 1970-01-01T00:00:00 on the wall clock of the location of `t`. -/
def Time.abs (t : Time) : Int := t.unix + t.offset

/-- Go `Time.Year`. -/
def Time.Year (t : Time) : Int := (civil (t.abs / 86400)).1

/-- Go `Time.Month`. -/
def Time.Month (t : Time) : Int := (civil (t.abs / 86400)).2.1

/-- Go `Time.Day`. -/
def Time.Day (t : Time) : Int := (civil (t.abs / 86400)).2.2

/-- Go `Time.Hour`. -/
def Time.Hour (t : Time) : Int := t.abs % 86400 / 3600

/-- Go `Time.Minute`. -/
def Time.Minute (t : Time) : Int := t.abs % 3600 / 60

/-- Go `Time.Second`. -/
def Time.Second (t : Time) : Int := t.abs % 60

/-- Byte of the decimal digit `d`. -/
def digitByte (d : Nat) : UInt8 := UInt8.ofNat (48 + d % 10)

/-- Decimal digits of `u`, most significant first, in front of `acc`. -/
def digitsAux : Nat → Nat → ByteSeq → ByteSeq
  | 0, _, acc => acc
  | fuel + 1, u, acc =>
    if u / 10 = 0 then digitByte u :: acc else digitsAux fuel (u / 10) (digitByte u :: acc)

/-- Decimal representation of a natural number. -/
def decimal (u : Nat) : ByteSeq := digitsAux (u + 1) u []

/-- Go `appendInt(b, x, width)` applied to an empty `b`: sign, zero padding up to `width`
digits, digits. -/
def appendInt (x : Int) (width : Nat) : ByteSeq :=
  let ds := decimal x.natAbs
  (if x < 0 then str "-" else []) ++ List.replicate (width - ds.length) (48 : UInt8) ++ ds

/-- Pieces of a layout string, as the library cuts it up (`nextStdChunk`). -/
inductive Chunk where
  | lit (s : ByteSeq)
  | stdLongYear
  | stdZeroMonth
  | stdZeroDay
  | stdHour
  | stdZeroMinute
  | stdZeroSecond
  | stdFracSecond0 (n : Nat)
  | stdISO8601ColonTZ

/-- A layout string cut into its pieces. -/
abbrev Layout := List Chunk

/-- Zone designator for layout element `Z07:00`: `Z` at offset zero, else sign, hours,
colon, minutes. -/
def formatZone (offset : Int) : ByteSeq :=
  if offset = 0 then str "Z"
  else
    let zone := Int.tdiv offset 60
    (if zone < 0 then str "-" else str "+")
      ++ appendInt ((zone.natAbs : Int) / 60) 2 ++ str ":" ++ appendInt ((zone.natAbs : Int) % 60) 2

/-- Go `appendNano` for a layout element `.000…` of `n` zeroes: the separator and the
first `n` of the nine nanosecond digits, nothing trimmed. -/
def appendNano (nsec : Nat) (n : Nat) : ByteSeq :=
  str "." ++ (appendInt (nsec : Int) 9).take n

/-- Text one layout piece produces for `t`. -/
def formatChunk (t : Time) : Chunk → ByteSeq
  | .lit s => s
  | .stdLongYear => appendInt t.Year 4
  | .stdZeroMonth => appendInt t.Month 2
  | .stdZeroDay => appendInt t.Day 2
  | .stdHour => appendInt t.Hour 2
  | .stdZeroMinute => appendInt t.Minute 2
  | .stdZeroSecond => appendInt t.Second 2
  | .stdFracSecond0 n => appendNano t.nsec n
  | .stdISO8601ColonTZ => formatZone t.offset

/-- Go `Time.Format(layout)`. -/
def Time.Format (t : Time) (layout : Layout) : ByteSeq :=
  List.flatten (layout.map (formatChunk t))

/-- Go `isDigit`. -/
def isDigit (c : UInt8) : Bool := decide (48 ≤ c.toNat) && decide (c.toNat ≤ 57)

/-- Value of a digit byte. -/
def digitVal (c : UInt8) : Nat := c.toNat - 48

/-- Go `getnum(s, fixed)`: a one- or two-digit number (two digits required when `fixed`)
and the rest of the input. -/
def getnum (s : ByteSeq) (fixed : Bool) : Option (Int × ByteSeq) :=
  match s with
  | [] => none
  | [c0] =>
    if !isDigit c0 then none else if fixed then none else some ((digitVal c0 : Int), [])
  | c0 :: c1 :: rest =>
    if !isDigit c0 then none
    else if !isDigit c1 then (if fixed then none else some ((digitVal c0 : Int), c1 :: rest))
    else some (((digitVal c0 * 10 + digitVal c1 : Nat) : Int), rest)

/-- Go `skip(value, prefix)` for a one-byte literal that is not a space. -/
def skip (value : ByteSeq) (c : UInt8) : Option ByteSeq :=
  match value with
  | [] => none
  | v :: rest => if v = c then some rest else none

/-- Value of a run of digit bytes. -/
def atoiDigits (ds : ByteSeq) : Nat := ds.foldl (fun acc c => acc * 10 + digitVal c) 0

/-- The four-digit year at the start of the value. -/
def getYear (value : ByteSeq) : Option (Int × ByteSeq) :=
  match value with
  | a :: b :: c :: d :: rest =>
    if isDigit a && isDigit b && isDigit c && isDigit d
    then some ((atoiDigits [a, b, c, d] : Int), rest) else none
  | _ => none

/-- Fractional seconds for layout element `.999999999`: when the value goes on with a
period or comma and a digit, the whole run of digits is consumed and its first nine digits
give the nanoseconds (Go `parseNanoseconds`); otherwise nothing is consumed. -/
def getFrac (value : ByteSeq) : Nat × ByteSeq :=
  match value with
  | sep :: d :: rest =>
    if (sep = 46 ∨ sep = 44) ∧ isDigit d = true then
      let run := (d :: rest).takeWhile isDigit
      let kept := run.take 9
      (atoiDigits kept * 10 ^ (9 - kept.length), (d :: rest).dropWhile isDigit)
    else (0, value)
  | _ => (0, value)

/-- Zone for layout element `Z07:00`: `Z`, or sign, two-digit hours, colon, two-digit
minutes; the offset in seconds and the rest of the input. -/
def getZone (value : ByteSeq) : Option (Int × ByteSeq) :=
  match value with
  | 90 :: rest => some (0, rest)
  | sign :: h0 :: h1 :: colon :: m0 :: m1 :: rest =>
    if colon ≠ 58 then none
    else do
      let (hr, _) ← getnum [h0, h1] true
      let (mm, _) ← getnum [m0, m1] true
      if hr > 24 ∨ mm > 60 then none
      else if sign = 43 then some ((hr * 60 + mm) * 60, rest)
      else if sign = 45 then some (-((hr * 60 + mm) * 60), rest)
      else none
  | _ => none

/-- A number read by `getnum` followed by the range test of its layout element: an error
when the number is out of range (`bad`). -/
def getnumChecked (value : ByteSeq) (fixed : Bool) (bad : Int → Bool) :
    Option (Int × ByteSeq) :=
  match getnum value fixed with
  | none => none
  | some (n, rest) => if bad n then none else some (n, rest)

/-- The date part `2006-01-02T` of the layout: year, month, day (the day is validated once
the whole value is read). -/
def parseDate (value : ByteSeq) : Option ((Int × Int × Int) × ByteSeq) := do
  let (year, value) ← getYear value
  let value ← skip value 45
  let (month, value) ← getnumChecked value true (fun month => decide (month ≤ 0 ∨ 12 < month))
  let value ← skip value 45
  let (day, value) ← getnum value true
  let value ← skip value 84
  some ((year, month, day), value)

/-- The clock part `15:04:05` of the layout: hour, minute, second. -/
def parseClock (value : ByteSeq) : Option ((Int × Int × Int) × ByteSeq) := do
  let (hour, value) ← getnumChecked value false (fun hour => decide (hour < 0 ∨ 24 ≤ hour))
  let value ← skip value 58
  let (min, value) ← getnumChecked value true (fun min => decide (min < 0 ∨ 60 ≤ min))
  let value ← skip value 58
  let (sec, value) ← getnumChecked value true (fun sec => decide (sec < 0 ∨ 60 ≤ sec))
  some ((hour, min, sec), value)

/-- Go `time.Parse(time.RFC3339Nano, value)`, the layout being
`2006-01-02T15:04:05.999999999Z07:00`: `none` stands for a returned error. -/
def Parse (value : ByteSeq) : Option Time :=
  match parseDate value with
  | none => none
  | some ((year, month, day), value) =>
    match parseClock value with
    | none => none
    | some ((hour, min, sec), value) =>
      match getZone (getFrac value).2 with
      | none => none
      | some (zoneOffset, rest) =>
        if rest ≠ [] then none
        else if day < 1 ∨ day > daysIn month year then none
        else
          let t := Date year month day hour min sec (getFrac value).1
          some { unix := t.unix - zoneOffset, nsec := t.nsec, loc := FixedZone zoneOffset }

/-! ## `log_item.go` -/

/-- Go `LogItem`: a container log line. -/
structure LogItem where
  Pod : ByteSeq
  Container : ByteSeq
  SingleContainer : Bool
  Bytes : ByteSeq
  IsError : Bool

/-- The end-of-stream item `new(LogItem)`: every field has its zero value. -/
def ItemEOF : LogItem := ⟨[], [], false, [], false⟩

/-- The layout `"2006-01-02T15:04:05.000000000Z07:00"`, cut into its pieces. -/
def RFC3339NanoTrailingZeroes : Layout :=
  [.stdLongYear, .lit (str "-"), .stdZeroMonth, .lit (str "-"), .stdZeroDay, .lit (str "T"),
   .stdHour, .lit (str ":"), .stdZeroMinute, .lit (str ":"), .stdZeroSecond,
   .stdFracSecond0 9, .stdISO8601ColonTZ]

/-- Go `ConvertTimeZone(ts, tz)`. -/
def ConvertTimeZone (ts : ByteSeq) (tz : Option Location) : ByteSeq :=
  match tz with
  | none => ts
  | some loc =>
    match Parse ts with
    | none => ts
    | some dt => (dt.In loc).Format RFC3339NanoTrailingZeroes

/-- Go `NewLogItem`. -/
def NewLogItem (bb : ByteSeq) : LogItem := ⟨[], [], false, bb, false⟩

/-- Go `LogItem.ID`. -/
def LogItem.ID (l : LogItem) : ByteSeq :=
  if l.Pod ≠ [] then l.Pod else l.Container

/-- Go `LogItem.GetTimestamp`. -/
def LogItem.GetTimestamp (l : LogItem) : Option ByteSeq :=
  let index := Index l.Bytes [SP]
  if index < 0 then some [] else sliceTo l.Bytes index

/-- Go `LogItem.Info`. -/
def LogItem.Info (l : LogItem) : ByteSeq := l.Pod ++ str "::" ++ l.Container

/-- Go `LogItem.IsEmpty`. -/
def LogItem.IsEmpty (l : LogItem) : Bool := decide (l.Bytes.length = 0)

/-- Go `LogItem.Size`. -/
def LogItem.Size (l : LogItem) : Int :=
  100 + (l.Bytes.length : Int) + (l.Pod.length : Int) + (l.Container.length : Int)

/-- The timestamp block of `Render` (lines 91 to 99). -/
def renderTime (l : LogItem) (showTime : Bool) (tz : Option Location) (index : Int)
    (bb : Buffer) : Option Buffer :=
  if showTime = true ∧ index > 0 then do
    let bb := WriteString bb (str "[gray::b]")
    let tok ← sliceTo l.Bytes index
    let bb := WriteString bb (ConvertTimeZone tok tz)
    let bb := WriteString bb (str " ")
    let tok ← sliceTo l.Bytes index
    let n : Int := 30 - (tok.length : Int)
    let bb ← if n > 0 then (Repeat [SP] n).map (Write bb) else some bb
    some (WriteString bb (str "[-::-]"))
  else some bb

/-- The pod block of `Render` (lines 101 to 103). -/
def renderPod (l : LogItem) (paint : ByteSeq) (bb : Buffer) : Buffer :=
  if l.Pod ≠ [] then WriteString bb (str "[" ++ paint ++ str "::]" ++ l.Pod) else bb

/-- The container block of `Render` (lines 105 to 112). -/
def renderContainer (l : LogItem) (paint : ByteSeq) (bb : Buffer) : Buffer :=
  if l.SingleContainer = false ∧ l.Container ≠ [] then
    let bb := if l.Pod.length > 0 then WriteString bb (str " ") else bb
    WriteString bb (str "[" ++ paint ++ str "::b]" ++ l.Container ++ str "[-::-] ")
  else if l.Pod.length > 0 then WriteString bb (str "[-::] ")
  else bb

/-- The message block of `Render` (lines 114 to 118). -/
def renderMessage (l : LogItem) (index : Int) (bb : Buffer) : Option Buffer :=
  if index > 0 then (sliceFrom l.Bytes (index + 1)).map (Write bb)
  else some (Write bb l.Bytes)

/-- Go `LogItem.Render(paint, showTime, tz, bb)`: the content of `bb` afterwards, `none`
if a slice expression aborts. -/
def LogItem.Render (l : LogItem) (paint : ByteSeq) (showTime : Bool) (tz : Option Location)
    (bb : Buffer) : Option Buffer := do
  let index := Index l.Bytes [SP]
  let bb ← renderTime l showTime tz index bb
  let bb := renderPod l paint bb
  let bb := renderContainer l paint bb
  renderMessage l index bb

/-! ## Reading of the rendered line

The columns of a rendered line, written out as the specification describes them; the
lemmas below relate them to what `Render` writes. -/

/-- The timestamp column for the raw token `tok`: opening tag, converted token, one space,
padding computed from the length of the raw token, closing tag. -/
def timestampColumn (tok : ByteSeq) (tz : Option Location) : ByteSeq :=
  str "[gray::b]" ++ ConvertTimeZone tok tz ++ str " " ++ List.replicate (30 - tok.length) SP
    ++ str "[-::-]"

/-- The pod column. -/
def podColumn (l : LogItem) (paint : ByteSeq) : ByteSeq :=
  if l.Pod ≠ [] then str "[" ++ paint ++ str "::]" ++ l.Pod else []

/-- The container column, or the spacer that stands in for it. -/
def containerColumn (l : LogItem) (paint : ByteSeq) : ByteSeq :=
  if l.SingleContainer = false ∧ l.Container ≠ [] then
    (if l.Pod ≠ [] then str " " else []) ++ (str "[" ++ paint ++ str "::b]" ++ l.Container
      ++ str "[-::-] ")
  else if l.Pod ≠ [] then str "[-::] "
  else []

/-- The identity columns: pod column, then container column. -/
def identityColumns (l : LogItem) (paint : ByteSeq) : ByteSeq :=
  podColumn l paint ++ containerColumn l paint

/-- The date and clock part of a time formatted with `RFC3339NanoTrailingZeroes`, up to
the seconds. -/
def formatSeconds (t : Time) : ByteSeq :=
  appendInt t.Year 4 ++ str "-" ++ appendInt t.Month 2 ++ str "-" ++ appendInt t.Day 2
    ++ str "T" ++ appendInt t.Hour 2 ++ str ":" ++ appendInt t.Minute 2 ++ str ":"
    ++ appendInt t.Second 2

/-- A location whose offset changes in the course of a year, as that of `Europe/London`
does in 2023: UTC+1 from 2023-03-26T01:00:00Z until 2023-10-29T01:00:00Z, UTC otherwise. -/
def londonIn2023 : Location :=
  ⟨fun unix => if 1679792400 ≤ unix ∧ unix < 1698541200 then 3600 else 0⟩

/-- The timestamp column of an item: present when a timestamp is requested and the first
space of the payload is at an index above zero, empty otherwise. -/
def timeColumn (l : LogItem) (showTime : Bool) (tz : Option Location) : ByteSeq :=
  if showTime = true ∧ Index l.Bytes [SP] > 0
  then timestampColumn (l.Bytes.take (Index l.Bytes [SP]).toNat) tz else []

/-- The message of an item: the payload after its first space when that space is at an
index above zero, the whole payload otherwise. -/
def message (l : LogItem) : ByteSeq :=
  if Index l.Bytes [SP] > 0 then l.Bytes.drop ((Index l.Bytes [SP]).toNat + 1) else l.Bytes

/-! ## Lemmas on `bytes.Index` with a one-space separator -/

theorem indexFrom_sp_none (s : ByteSeq) (i : Nat) (h : SP ∉ s) : indexFrom [SP] s i = -1 := by
  induction s generalizing i with
  | nil => simp [indexFrom, List.isPrefixOf]
  | cons c t ih =>
    have hc : SP ≠ c := fun e => h (by simp [e])
    have ht : SP ∉ t := fun e => h (List.mem_cons_of_mem _ e)
    simp [indexFrom, List.isPrefixOf, hc, ih (i + 1) ht]

theorem indexFrom_sp_split (tok rest : ByteSeq) (i : Nat) (h : SP ∉ tok) :
    indexFrom [SP] (tok ++ SP :: rest) i = ((i + tok.length : Nat) : Int) := by
  induction tok generalizing i with
  | nil => simp [indexFrom, List.isPrefixOf]
  | cons c t ih =>
    have hc : SP ≠ c := fun e => h (by simp [e])
    have ht : SP ∉ t := fun e => h (List.mem_cons_of_mem _ e)
    have hb : (SP == c) = false := by simpa using hc
    have hstep : indexFrom [SP] (c :: (t ++ SP :: rest)) i
        = indexFrom [SP] (t ++ SP :: rest) (i + 1) := by
      simp [indexFrom, List.isPrefixOf, hb]
    rw [List.cons_append, hstep, ih (i + 1) ht, List.length_cons]
    congr 1
    omega

theorem split_at_space (s : ByteSeq) :
    SP ∉ s ∨ ∃ tok rest, s = tok ++ SP :: rest ∧ SP ∉ tok := by
  induction s with
  | nil => left; simp
  | cons c t ih =>
    by_cases hc : c = SP
    · right; exact ⟨[], t, by simp [hc], by simp⟩
    · rcases ih with h | ⟨tok, rest, h1, h2⟩
      · left
        intro hm
        rcases List.mem_cons.mp hm with e | e
        · exact hc e.symm
        · exact h e
      · right
        refine ⟨c :: tok, rest, by simp [h1], ?_⟩
        intro hm
        rcases List.mem_cons.mp hm with e | e
        · exact hc e.symm
        · exact h2 e

theorem Index_sp_none (s : ByteSeq) (h : SP ∉ s) : Index s [SP] = -1 :=
  indexFrom_sp_none s 0 h

theorem Index_sp_split (tok rest : ByteSeq) (h : SP ∉ tok) :
    Index (tok ++ SP :: rest) [SP] = (tok.length : Int) := by
  simp [Index, indexFrom_sp_split tok rest 0 h]

/-! ## Lemmas on `Render` -/

theorem render_identity (l : LogItem) (paint : ByteSeq) (bb : Buffer) :
    renderContainer l paint (renderPod l paint bb) = bb ++ identityColumns l paint := by
  unfold renderContainer renderPod identityColumns podColumn containerColumn WriteString
  by_cases hp : l.Pod = []
  · by_cases hc : l.SingleContainer = false ∧ l.Container ≠ [] <;> simp [hp, hc]
  · have hlen : 0 < l.Pod.length := List.length_pos.mpr hp
    by_cases hc : l.SingleContainer = false ∧ l.Container ≠ [] <;> simp [hp, hc, hlen]

theorem sliceTo_split (tok rest : ByteSeq) :
    sliceTo (tok ++ SP :: rest) (tok.length : Int) = some tok := by
  have h1 : (0 : Int) ≤ (tok.length : Int) := by omega
  have h3 : (tok.length : Int) ≤ ((tok ++ SP :: rest).length : Int) := by
    simp only [List.length_append, List.length_cons]
    omega
  unfold sliceTo
  rw [if_pos ⟨h1, h3⟩]
  simp

theorem sliceFrom_split (tok rest : ByteSeq) :
    sliceFrom (tok ++ SP :: rest) ((tok.length : Int) + 1) = some rest := by
  have h1 : (0 : Int) ≤ (tok.length : Int) + 1 := by omega
  have h2 : ((tok.length : Int) + 1).toNat = tok.length + 1 := by omega
  have h3 : (tok.length : Int) + 1 ≤ ((tok ++ SP :: rest).length : Int) := by
    simp only [List.length_append, List.length_cons]
    omega
  unfold sliceFrom
  rw [if_pos ⟨h1, h3⟩, h2]
  simp

theorem renderTime_token (l : LogItem) (tz : Option Location) (bb : Buffer)
    (tok rest : ByteSeq) (h : l.Bytes = tok ++ SP :: rest) (hne : tok ≠ []) :
    renderTime l true tz (tok.length : Int) bb = some (bb ++ timestampColumn tok tz) := by
  have hlen : 0 < tok.length := List.length_pos.mpr hne
  have hpos : (tok.length : Int) > 0 := by omega
  unfold renderTime
  rw [if_pos ⟨rfl, hpos⟩, h]
  simp only [sliceTo_split, Option.bind_eq_bind, Option.some_bind, WriteString, Write,
    timestampColumn]
  by_cases hn : (30 : Int) - (tok.length : Int) > 0
  · have h3 : ¬ ((30 : Int) - (tok.length : Int) < 0) := by omega
    have h4 : ((30 : Int) - (tok.length : Int)).toNat = 30 - tok.length := by omega
    simp [hn, Repeat, h3, h4, Write]
  · have h4 : 30 - tok.length = 0 := by omega
    simp [hn, h4]

theorem Render_nospace (l : LogItem) (paint : ByteSeq) (showTime : Bool)
    (tz : Option Location) (bb : Buffer) (h : SP ∉ l.Bytes) :
    l.Render paint showTime tz bb = some (bb ++ identityColumns l paint ++ l.Bytes) := by
  simp [LogItem.Render, Index_sp_none l.Bytes h, renderTime, renderMessage, render_identity,
    Write]

theorem Render_leading_space (l : LogItem) (paint : ByteSeq) (showTime : Bool)
    (tz : Option Location) (bb : Buffer) (rest : ByteSeq) (h : l.Bytes = SP :: rest) :
    l.Render paint showTime tz bb = some (bb ++ identityColumns l paint ++ l.Bytes) := by
  have hi : Index l.Bytes [SP] = 0 := by
    rw [h]
    simpa using Index_sp_split [] rest (by simp)
  simp [LogItem.Render, hi, renderTime, renderMessage, render_identity, Write]

theorem Render_token (l : LogItem) (paint : ByteSeq) (showTime : Bool)
    (tz : Option Location) (bb : Buffer) (tok rest : ByteSeq)
    (h : l.Bytes = tok ++ SP :: rest) (hs : SP ∉ tok) (hne : tok ≠ []) :
    l.Render paint showTime tz bb
      = some (bb ++ (if showTime = true then timestampColumn tok tz else [])
          ++ identityColumns l paint ++ rest) := by
  have hi : Index l.Bytes [SP] = (tok.length : Int) := by rw [h]; exact Index_sp_split tok rest hs
  have hlen : 0 < tok.length := List.length_pos.mpr hne
  have hpos : (tok.length : Int) > 0 := by omega
  have hmsg : ∀ b : Buffer, renderMessage l (tok.length : Int) b = some (b ++ rest) := by
    intro b
    simp [renderMessage, hpos, h, sliceFrom_split, Write]
  cases showTime with
  | true =>
    simp [LogItem.Render, hi, renderTime_token l tz bb tok rest h hne, render_identity, hmsg]
  | false =>
    simp [LogItem.Render, hi, renderTime, render_identity, hmsg]

theorem Index_pos_split (s : ByteSeq) (idx : Nat) (h : Index s [SP] = (idx : Int))
    (hpos : 0 < idx) :
    s = s.take idx ++ SP :: s.drop (idx + 1) ∧ SP ∉ s.take idx ∧ (s.take idx).length = idx
      ∧ s.take idx ≠ [] := by
  rcases split_at_space s with hn | ⟨tok, rest, hs, hns⟩
  · rw [Index_sp_none s hn] at h
    omega
  · have hi : Index s [SP] = (tok.length : Int) := by rw [hs]; exact Index_sp_split tok rest hns
    have he : tok.length = idx := by rw [hi] at h; exact_mod_cast h
    have ht : s.take idx = tok := by rw [hs, ← he]; simp
    have hd : s.drop (idx + 1) = rest := by
      rw [hs, ← he]
      simp [List.drop_append_eq_append_drop]
    refine ⟨by rw [ht, hd]; exact hs, by rw [ht]; exact hns, by rw [ht]; exact he, ?_⟩
    rw [ht]
    intro e
    rw [e] at he
    simp at he
    omega

/-! ## Claims on the timestamp column -/

/-- C1 (as amended): when the first space of the payload is at index `idx > 0`, `Render`
with `showTime = true` and no timezone writes, between `[gray::b]` and `[-::-]`, the raw
token `Payload[:idx]` followed by exactly `1 + max(0, 30 - idx)` spaces; the column is 31
bytes wide when `idx ≤ 30` and is the token plus one space when `idx ≥ 30`. -/
theorem render_timestamp_column_width (l : LogItem) (paint : ByteSeq) (bb : Buffer) (idx : Nat)
    (hidx : Index l.Bytes [SP] = (idx : Int)) (hpos : 0 < idx) :
    l.Render paint true none bb
        = some (bb ++ str "[gray::b]" ++ (l.Bytes.take idx ++ List.replicate (1 + (30 - idx)) SP)
            ++ str "[-::-]" ++ identityColumns l paint ++ l.Bytes.drop (idx + 1))
      ∧ SP ∉ l.Bytes.take idx
      ∧ (idx ≤ 30 → (l.Bytes.take idx ++ List.replicate (1 + (30 - idx)) SP).length = 31)
      ∧ (30 ≤ idx →
          l.Bytes.take idx ++ List.replicate (1 + (30 - idx)) SP = l.Bytes.take idx ++ [SP]) := by
  obtain ⟨hsplit, hns, hlen, hne⟩ := Index_pos_split l.Bytes idx hidx hpos
  refine ⟨?_, hns, ?_, ?_⟩
  · rw [Render_token l paint true none bb _ _ hsplit hns hne]
    simp only [timestampColumn, ConvertTimeZone, hlen, if_true]
    have hrep : List.replicate (1 + (30 - idx)) SP = str " " ++ List.replicate (30 - idx) SP := by
      rw [Nat.add_comm, List.replicate_succ]
      rfl
    rw [hrep]
    simp only [List.append_assoc]
  · intro h30
    rw [List.length_append, hlen, List.length_replicate]
    omega
  · intro h30
    have h0 : 30 - idx = 0 := by omega
    rw [h0]
    rfl

/-- C1, witness: the payload `2023-01-01T00:00:00.5Z hello` has its first space at index
22 and gets a column of the token and nine spaces. -/
theorem render_timestamp_column_width_witness :
    (LogItem.Render ⟨[], [], false, str "2023-01-01T00:00:00.5Z hello", false⟩ (str "blue") true
        none []
      = some ([] ++ str "[gray::b]"
          ++ ((str "2023-01-01T00:00:00.5Z hello").take 22 ++ List.replicate (1 + (30 - 22)) SP)
          ++ str "[-::-]"
          ++ identityColumns ⟨[], [], false, str "2023-01-01T00:00:00.5Z hello", false⟩ (str "blue")
          ++ (str "2023-01-01T00:00:00.5Z hello").drop (22 + 1)))
      ∧ SP ∉ (str "2023-01-01T00:00:00.5Z hello").take 22
      ∧ (22 ≤ 30 →
          ((str "2023-01-01T00:00:00.5Z hello").take 22
            ++ List.replicate (1 + (30 - 22)) SP).length = 31)
      ∧ (30 ≤ 22 →
          (str "2023-01-01T00:00:00.5Z hello").take 22 ++ List.replicate (1 + (30 - 22)) SP
            = (str "2023-01-01T00:00:00.5Z hello").take 22 ++ [SP]) :=
  render_timestamp_column_width ⟨[], [], false, str "2023-01-01T00:00:00.5Z hello", false⟩
    (str "blue") [] 22 (by decide) (by decide)

/-- C1, counterexample to the claim as stated: for the payload
`2023-01-01T00:00:00.5Z hello` (first space at index 22) the token is not followed by
`30 - 22 = 8` spaces and the closing tag; a ninth space comes first. -/
theorem render_timestamp_column_not_30 :
    Index (str "2023-01-01T00:00:00.5Z hello") [SP] = 22
      ∧ ¬ ∃ rest, LogItem.Render ⟨[], [], false, str "2023-01-01T00:00:00.5Z hello", false⟩
          (str "blue") true none []
        = some (str "[gray::b]" ++ (str "2023-01-01T00:00:00.5Z hello").take 22
            ++ List.replicate (30 - 22) SP ++ str "[-::-]" ++ rest) := by
  refine ⟨by decide, ?_⟩
  rintro ⟨rest, h⟩
  have hout : LogItem.Render ⟨[], [], false, str "2023-01-01T00:00:00.5Z hello", false⟩
      (str "blue") true none []
      = some (str "[gray::b]2023-01-01T00:00:00.5Z         [-::-]hello") := by decide
  have hp : (str "[gray::b]" ++ (str "2023-01-01T00:00:00.5Z hello").take 22
      ++ List.replicate (30 - 22) SP ++ str "[-::-]")
      <+: str "[gray::b]2023-01-01T00:00:00.5Z         [-::-]hello" :=
    ⟨rest, (Option.some.inj (hout.symm.trans h)).symm⟩
  exact absurd hp (by decide)

/-- C2, evaluation at the failing input: with the timezone UTC, the payloads
`2023-01-01T00:00:00.5Z a` and `2023-01-01T00:00:00.25Z a` start with tokens that parse,
carry the same zone designator and are at most 30 bytes long; both tokens are converted to
30 bytes, but the padding is computed from the raw lengths 22 and 23, so the columns
between `[gray::b]` and `[-::-]` are 39 and 38 bytes wide. -/
theorem render_columns_misaligned_under_conversion :
    (Parse (str "2023-01-01T00:00:00.5Z")).isSome = true
      ∧ (Parse (str "2023-01-01T00:00:00.25Z")).isSome = true
      ∧ LogItem.Render ⟨[], [], false, str "2023-01-01T00:00:00.5Z a", false⟩ (str "blue") true
          (some UTC) []
        = some (str "[gray::b]" ++ (str "2023-01-01T00:00:00.500000000Z" ++ List.replicate 9 SP)
            ++ str "[-::-]" ++ str "a")
      ∧ LogItem.Render ⟨[], [], false, str "2023-01-01T00:00:00.25Z a", false⟩ (str "blue") true
          (some UTC) []
        = some (str "[gray::b]" ++ (str "2023-01-01T00:00:00.250000000Z" ++ List.replicate 8 SP)
            ++ str "[-::-]" ++ str "a")
      ∧ (str "2023-01-01T00:00:00.500000000Z" ++ List.replicate 9 SP).length = 39
      ∧ (str "2023-01-01T00:00:00.250000000Z" ++ List.replicate 8 SP).length = 38 := by
  decide

/-- C3 (as amended): for Pod and Container empty and the payload `no timestamp here`,
`Render` with `showTime = true` and no timezone, into an empty buffer, writes the token `no`
before the first space as a timestamp column (29 spaces after it) and then the rest of the
payload, `timestamp here`; no tag is written for the empty identity fields. -/
theorem render_scenario3 (paint : ByteSeq) (single isError : Bool) :
    LogItem.Render ⟨[], [], single, str "no timestamp here", isError⟩ paint true none []
      = some (str "[gray::b]no" ++ List.replicate 29 SP ++ str "[-::-]" ++ str "timestamp here") := by
  rw [Render_token ⟨[], [], single, str "no timestamp here", isError⟩ paint true none []
    (str "no") (str "timestamp here")
    (show str "no timestamp here" = str "no" ++ SP :: str "timestamp here" by decide)
    (by decide) (by decide)]
  have hid : identityColumns ⟨[], [], single, str "no timestamp here", isError⟩ paint = [] := by
    simp [identityColumns, podColumn, containerColumn]
  have hts : timestampColumn (str "no") none
      = str "[gray::b]no" ++ List.replicate 29 SP ++ str "[-::-]" := by decide
  rw [hid, hts]
  simp

/-- C3, counterexample to the claim as stated: the output for scenario 3 is not the raw
payload. -/
theorem render_scenario3_not_verbatim :
    LogItem.Render ⟨[], [], false, str "no timestamp here", false⟩ (str "blue") true none []
      ≠ some (str "no timestamp here") := by
  decide

/-! ## Claims on the identity columns -/

/-- C4: two items with `SingleContainer = true` that differ only in `Container` are
rendered identically, whatever the paint, `showTime`, timezone and buffer; for Pod `p1`,
Container `c1` and payload `2023-01-01T00:00:00.000000000Z hello` the output is the
timestamp column, `p1` with its spacer, and the message. -/
theorem render_single_container_omits_container (l₁ l₂ : LogItem) (paint : ByteSeq)
    (showTime : Bool) (tz : Option Location) (bb : Buffer)
    (h₁ : l₁.SingleContainer = true) (h₂ : l₂.SingleContainer = true)
    (hPod : l₁.Pod = l₂.Pod) (hBytes : l₁.Bytes = l₂.Bytes) (hErr : l₁.IsError = l₂.IsError) :
    l₁.Render paint showTime tz bb = l₂.Render paint showTime tz bb
      ∧ LogItem.Render ⟨str "p1", str "c1", true, str "2023-01-01T00:00:00.000000000Z hello",
            false⟩ paint true none []
          = some (str "[gray::b]2023-01-01T00:00:00.000000000Z [-::-]"
              ++ (str "[" ++ paint ++ str "::]" ++ str "p1") ++ str "[-::] " ++ str "hello") := by
  constructor
  · obtain ⟨p₁, c₁, s₁, b₁, e₁⟩ := l₁
    obtain ⟨p₂, c₂, s₂, b₂, e₂⟩ := l₂
    simp only at h₁ h₂ hPod hBytes hErr
    subst h₁ h₂ hPod hBytes hErr
    simp [LogItem.Render, renderTime, renderPod, renderContainer, renderMessage]
  · rw [Render_token ⟨str "p1", str "c1", true, str "2023-01-01T00:00:00.000000000Z hello",
      false⟩ paint true none [] (str "2023-01-01T00:00:00.000000000Z") (str "hello")
      (show str "2023-01-01T00:00:00.000000000Z hello"
        = str "2023-01-01T00:00:00.000000000Z" ++ SP :: str "hello" by decide)
      (by decide) (by decide)]
    have hid : identityColumns ⟨str "p1", str "c1", true,
        str "2023-01-01T00:00:00.000000000Z hello", false⟩ paint
        = (str "[" ++ paint ++ str "::]" ++ str "p1") ++ str "[-::] " := by
      have hp : str "p1" ≠ [] := by decide
      simp [identityColumns, podColumn, containerColumn, hp]
    have hts : timestampColumn (str "2023-01-01T00:00:00.000000000Z") none
        = str "[gray::b]2023-01-01T00:00:00.000000000Z [-::-]" := by decide
    rw [hid, hts]
    simp

/-- C4, witness: the items with Pod `p1`, payload `x y` and Containers `c1` and `c2`. -/
theorem render_single_container_omits_container_witness :
    LogItem.Render ⟨str "p1", str "c1", true, str "x y", false⟩ (str "blue") true none []
        = LogItem.Render ⟨str "p1", str "c2", true, str "x y", false⟩ (str "blue") true none []
      ∧ LogItem.Render ⟨str "p1", str "c1", true, str "2023-01-01T00:00:00.000000000Z hello",
            false⟩ (str "blue") true none []
          = some (str "[gray::b]2023-01-01T00:00:00.000000000Z [-::-]"
              ++ (str "[" ++ str "blue" ++ str "::]" ++ str "p1") ++ str "[-::] " ++ str "hello") :=
  render_single_container_omits_container ⟨str "p1", str "c1", true, str "x y", false⟩
    ⟨str "p1", str "c2", true, str "x y", false⟩ (str "blue") true none [] rfl rfl rfl rfl rfl

theorem Render_columns (l : LogItem) (paint : ByteSeq) (showTime : Bool)
    (tz : Option Location) (bb : Buffer) :
    ∃ ts msg, l.Render paint showTime tz bb = some (bb ++ ts ++ identityColumns l paint ++ msg)
      ∧ (ts = [] ∨ ∃ body, ts = str "[gray::b]" ++ body ++ str "[-::-]")
      ∧ (msg = l.Bytes ∨ ∃ tok, l.Bytes = tok ++ SP :: msg) := by
  rcases split_at_space l.Bytes with hn | ⟨tok, rest, hs, hns⟩
  · exact ⟨[], l.Bytes, by simp [Render_nospace l paint showTime tz bb hn], Or.inl rfl, Or.inl rfl⟩
  · by_cases hne : tok = []
    · subst hne
      exact ⟨[], l.Bytes, by simp [Render_leading_space l paint showTime tz bb rest hs],
        Or.inl rfl, Or.inl rfl⟩
    · refine ⟨if showTime = true then timestampColumn tok tz else [], rest,
        Render_token l paint showTime tz bb tok rest hs hns hne, ?_, Or.inr ⟨tok, hs⟩⟩
      cases showTime with
      | false => exact Or.inl rfl
      | true =>
        right
        exact ⟨ConvertTimeZone tok tz ++ str " " ++ List.replicate (30 - tok.length) SP, by
          simp [timestampColumn]⟩

/-- C5 (as amended): what `Render` appends is a timestamp column, a pod column, a
container column and the message, and every opening tag is closed before the message
begins: `[gray::b]` and `[<paint>::b]` by `[-::-]`; `[<paint>::]` by the `[-::-]` of the
container column when there is one, and otherwise by the colour-only reset `[-::]`. -/
theorem render_spans_closed (l : LogItem) (paint : ByteSeq) (showTime : Bool)
    (tz : Option Location) (bb : Buffer) :
    ∃ ts pod cont msg, l.Render paint showTime tz bb = some (bb ++ ts ++ pod ++ cont ++ msg)
      ∧ (ts = [] ∨ ∃ body, ts = str "[gray::b]" ++ body ++ str "[-::-]")
      ∧ ((pod = [] ∧ (cont = []
              ∨ cont = str "[" ++ paint ++ str "::b]" ++ l.Container ++ str "[-::-] "))
          ∨ (pod = str "[" ++ paint ++ str "::]" ++ l.Pod
              ∧ (cont = str " " ++ (str "[" ++ paint ++ str "::b]" ++ l.Container ++ str "[-::-] ")
                  ∨ cont = str "[-::] ")))
      ∧ (msg = l.Bytes ∨ ∃ tok, l.Bytes = tok ++ SP :: msg) := by
  obtain ⟨ts, msg, hr, hts, hmsg⟩ := Render_columns l paint showTime tz bb
  refine ⟨ts, podColumn l paint, containerColumn l paint, msg, ?_, hts, ?_, hmsg⟩
  · rw [hr]
    simp [identityColumns]
  · unfold podColumn containerColumn
    by_cases hp : l.Pod = []
    · by_cases hc : l.SingleContainer = false ∧ l.Container ≠ [] <;> simp [hp, hc]
    · by_cases hc : l.SingleContainer = false ∧ l.Container ≠ [] <;> simp [hp, hc]

/-- C5, counterexample to the claim as stated: for Pod `p1`, `SingleContainer = true` and
payload `hello`, `Render` writes the opening tag `[blue::]` and the closing tag `[-::-]`
occurs nowhere in the output. -/
theorem render_pod_span_without_closing_tag :
    LogItem.Render ⟨str "p1", str "c1", true, str "hello", false⟩ (str "blue") false none []
        = some (str "[blue::]p1[-::] hello")
      ∧ ¬ (str "[-::-]" <:+: str "[blue::]p1[-::] hello") := by
  decide

/-! ## Claims on `GetTimestamp` and the payload without a space -/

/-- C6: for a payload without a space byte, `GetTimestamp` returns the empty string and
`Render` with `showTime = true` appends the identity columns and then the whole payload,
with no timestamp column. -/
theorem no_space_no_timestamp (l : LogItem) (paint : ByteSeq) (tz : Option Location)
    (bb : Buffer) (h : ∀ b ∈ l.Bytes, b ≠ SP) :
    l.GetTimestamp = some []
      ∧ l.Render paint true tz bb = some (bb ++ identityColumns l paint ++ l.Bytes) := by
  have hn : SP ∉ l.Bytes := fun hm => h SP hm rfl
  refine ⟨?_, Render_nospace l paint true tz bb hn⟩
  simp [LogItem.GetTimestamp, Index_sp_none l.Bytes hn]

/-- C6, witness: Pod `p1`, Container `c1`, payload `nospace`, timezone UTC. -/
theorem no_space_no_timestamp_witness :
    LogItem.GetTimestamp ⟨str "p1", str "c1", false, str "nospace", false⟩ = some []
      ∧ LogItem.Render ⟨str "p1", str "c1", false, str "nospace", false⟩ (str "blue") true
          (some UTC) (str ">")
        = some (str ">"
            ++ identityColumns ⟨str "p1", str "c1", false, str "nospace", false⟩ (str "blue")
            ++ str "nospace") :=
  no_space_no_timestamp ⟨str "p1", str "c1", false, str "nospace", false⟩ (str "blue")
    (some UTC) (str ">") (by decide)

/-- C7: for a payload `token ++ " " ++ rest` whose token has no space byte,
`GetTimestamp` returns exactly `token`. -/
theorem getTimestamp_token (l : LogItem) (token rest : ByteSeq)
    (hs : ∀ b ∈ token, b ≠ SP) (h : l.Bytes = token ++ str " " ++ rest) :
    l.GetTimestamp = some token := by
  have hn : SP ∉ token := fun hm => hs SP hm rfl
  have h' : l.Bytes = token ++ SP :: rest := by
    rw [h]
    simp [str, SP]
  have hi : Index l.Bytes [SP] = (token.length : Int) := by
    rw [h']
    exact Index_sp_split token rest hn
  have hlt : ¬ ((token.length : Int) < 0) := by omega
  simp only [LogItem.GetTimestamp, hi, hlt, if_false]
  rw [h']
  exact sliceTo_split token rest

/-- C7, witness: token `not-a-time`, rest `a b`. -/
theorem getTimestamp_token_witness :
    LogItem.GetTimestamp ⟨[], [], false, str "not-a-time a b", false⟩ = some (str "not-a-time") :=
  getTimestamp_token ⟨[], [], false, str "not-a-time a b", false⟩ (str "not-a-time") (str "a b")
    (by decide) (by decide)

/-! ## Claims on `ConvertTimeZone` -/

/-- C8: `ConvertTimeZone` with a nil timezone returns its argument. -/
theorem convertTimeZone_nil (raw : ByteSeq) : ConvertTimeZone raw none = raw := rfl

/-- C9: when `raw` does not parse, `ConvertTimeZone` returns `raw`, for every timezone. -/
theorem convertTimeZone_parse_failure (raw : ByteSeq) (tz : Option Location)
    (h : Parse raw = none) : ConvertTimeZone raw tz = raw := by
  cases tz with
  | none => rfl
  | some loc => simp [ConvertTimeZone, h]

/-- C9, witness: `2023-02-29T05:30:00Z` names a day that does not exist. -/
theorem convertTimeZone_parse_failure_witness :
    ConvertTimeZone (str "2023-02-29T05:30:00Z") (some (FixedZone 3600))
      = str "2023-02-29T05:30:00Z" :=
  convertTimeZone_parse_failure (str "2023-02-29T05:30:00Z") (some (FixedZone 3600)) rfl

/-! ## Lemmas on the formatting of a time -/

theorem civil_month_bounds (z : Int) : 1 ≤ (civil z).2.1 ∧ (civil z).2.1 ≤ 12 := by
  simp only [civil]
  split <;> omega

theorem civil_day_bounds (z : Int) : 1 ≤ (civil z).2.2 ∧ (civil z).2.2 ≤ 31 := by
  simp only [civil]
  omega

theorem digitByte_isDigit (d : Nat) : isDigit (digitByte d) = true := by
  have h : d % 10 < 10 := Nat.mod_lt _ (by decide)
  unfold digitByte
  generalize d % 10 = k at h
  interval_cases k <;> decide

theorem digitsAux_length_le (fuel : Nat) :
    ∀ (u : Nat) (acc : ByteSeq) (k : Nat), u < 10 ^ k → 1 ≤ k →
      (digitsAux fuel u acc).length ≤ acc.length + k := by
  induction fuel with
  | zero => intro u acc k _ _; simp [digitsAux]
  | succ n ih =>
    intro u acc k hu hk
    unfold digitsAux
    by_cases h0 : u / 10 = 0
    · rw [if_pos h0, List.length_cons]
      omega
    · rw [if_neg h0]
      obtain ⟨j, rfl⟩ : ∃ j, k = j + 1 := ⟨k - 1, by omega⟩
      have hj : 1 ≤ j := by
        rcases Nat.eq_zero_or_pos j with hj0 | hj0
        · subst hj0
          exact absurd (Nat.div_eq_of_lt (by simpa using hu)) h0
        · exact hj0
      have hdiv : u / 10 < 10 ^ j := by
        rw [Nat.div_lt_iff_lt_mul (by decide)]
        rw [pow_succ] at hu
        exact hu
      have := ih (u / 10) (digitByte u :: acc) j hdiv hj
      rw [List.length_cons] at this
      omega

theorem digitsAux_mem (fuel : Nat) :
    ∀ (u : Nat) (acc : ByteSeq) (b : UInt8), b ∈ digitsAux fuel u acc →
      isDigit b = true ∨ b ∈ acc := by
  induction fuel with
  | zero => intro u acc b hb; right; simpa [digitsAux] using hb
  | succ n ih =>
    intro u acc b hb
    unfold digitsAux at hb
    by_cases h0 : u / 10 = 0
    · rw [if_pos h0] at hb
      rcases List.mem_cons.mp hb with e | e
      · left; rw [e]; exact digitByte_isDigit u
      · right; exact e
    · rw [if_neg h0] at hb
      rcases ih _ _ _ hb with e | e
      · left; exact e
      · rcases List.mem_cons.mp e with e | e
        · left; rw [e]; exact digitByte_isDigit u
        · right; exact e

theorem decimal_length_le (u k : Nat) (hu : u < 10 ^ k) (hk : 1 ≤ k) :
    (decimal u).length ≤ k := by
  simpa [decimal] using digitsAux_length_le (u + 1) u [] k hu hk

theorem decimal_isDigit (u : Nat) (b : UInt8) (hb : b ∈ decimal u) : isDigit b = true := by
  rcases digitsAux_mem (u + 1) u [] b hb with e | e
  · exact e
  · simp at e

theorem appendInt_length (x : Int) (w : Nat) (h0 : 0 ≤ x) (h : x.natAbs < 10 ^ w) (hw : 1 ≤ w) :
    (appendInt x w).length = w := by
  have hl := decimal_length_le x.natAbs w h hw
  have hneg : ¬ x < 0 := by omega
  simp only [appendInt, hneg, if_false, List.nil_append, List.length_append,
    List.length_replicate]
  omega

theorem appendInt_isDigit (x : Int) (w : Nat) (h0 : 0 ≤ x) (b : UInt8)
    (hb : b ∈ appendInt x w) : isDigit b = true := by
  have hneg : ¬ x < 0 := by omega
  simp only [appendInt, hneg, if_false, List.nil_append, List.mem_append] at hb
  rcases hb with e | e
  · rw [(List.mem_replicate.mp e).2]
    decide
  · exact decimal_isDigit _ b e

theorem appendInt_no_period (x : Int) (w : Nat) (b : UInt8) (hb : b ∈ appendInt x w) :
    b ≠ 46 := by
  simp only [appendInt, List.mem_append] at hb
  rcases hb with (e | e) | e
  · split at e
    · have : b = 45 := by simpa [str] using e
      rw [this]
      decide
    · simp at e
  · rw [(List.mem_replicate.mp e).2]
    decide
  · have hd := decimal_isDigit _ b e
    intro h46
    rw [h46] at hd
    exact absurd hd (by decide)

theorem formatZone_head (offset : Int) :
    ∃ z zs, formatZone offset = z :: zs ∧ isDigit z = false := by
  unfold formatZone
  by_cases h0 : offset = 0
  · rw [if_pos h0]
    exact ⟨90, [], by decide, by decide⟩
  · rw [if_neg h0]
    by_cases hz : Int.tdiv offset 60 < 0
    · simp only [hz, if_true]
      exact ⟨45, _, rfl, by decide⟩
    · simp only [hz, if_false]
      exact ⟨43, _, rfl, by decide⟩

theorem Format_trailing_zeroes (t : Time) :
    t.Format RFC3339NanoTrailingZeroes
      = formatSeconds t ++ str "." ++ (appendInt (t.nsec : Int) 9).take 9
          ++ formatZone t.offset := by
  simp [Time.Format, RFC3339NanoTrailingZeroes, formatChunk, formatSeconds, appendNano]

theorem formatSeconds_no_period (t : Time) (b : UInt8) (hb : b ∈ formatSeconds t) :
    b ≠ 46 := by
  simp only [formatSeconds, List.mem_append] at hb
  have hlit : ∀ s : ByteSeq, (s = str "-" ∨ s = str "T" ∨ s = str ":") → b ∈ s → b ≠ 46 := by
    intro s hs hm
    rcases hs with e | e | e <;> subst e
    · have : b = 45 := by simpa [str] using hm
      rw [this]; decide
    · have : b = 84 := by simpa [str] using hm
      rw [this]; decide
    · have : b = 58 := by simpa [str] using hm
      rw [this]; decide
  rcases hb with (((((((((( e | e) | e) | e) | e) | e) | e) | e) | e) | e) | e)
  · exact appendInt_no_period _ _ b e
  · exact hlit _ (Or.inl rfl) e
  · exact appendInt_no_period _ _ b e
  · exact hlit _ (Or.inl rfl) e
  · exact appendInt_no_period _ _ b e
  · exact hlit _ (Or.inr (Or.inl rfl)) e
  · exact appendInt_no_period _ _ b e
  · exact hlit _ (Or.inr (Or.inr rfl)) e
  · exact appendInt_no_period _ _ b e
  · exact hlit _ (Or.inr (Or.inr rfl)) e
  · exact appendInt_no_period _ _ b e

theorem formatSeconds_length (t : Time) (hy0 : 0 ≤ t.Year) (hy : t.Year ≤ 9999) :
    (formatSeconds t).length = 19 := by
  have hm := civil_month_bounds (t.abs / 86400)
  have hd := civil_day_bounds (t.abs / 86400)
  have h1 : (appendInt t.Year 4).length = 4 :=
    appendInt_length _ 4 hy0 (by norm_num; omega) (by decide)
  have h2 : (appendInt t.Month 2).length = 2 :=
    appendInt_length _ 2 (by unfold Time.Month; omega) (by unfold Time.Month; norm_num; omega)
      (by decide)
  have h3 : (appendInt t.Day 2).length = 2 :=
    appendInt_length _ 2 (by unfold Time.Day; omega) (by unfold Time.Day; norm_num; omega)
      (by decide)
  have h4 : (appendInt t.Hour 2).length = 2 :=
    appendInt_length _ 2 (by unfold Time.Hour; omega) (by unfold Time.Hour; norm_num; omega)
      (by decide)
  have h5 : (appendInt t.Minute 2).length = 2 :=
    appendInt_length _ 2 (by unfold Time.Minute; omega) (by unfold Time.Minute; norm_num; omega)
      (by decide)
  have h6 : (appendInt t.Second 2).length = 2 :=
    appendInt_length _ 2 (by unfold Time.Second; omega) (by unfold Time.Second; norm_num; omega)
      (by decide)
  have hs1 : (str "-").length = 1 := by decide
  have hs2 : (str "T").length = 1 := by decide
  have hs3 : (str ":").length = 1 := by decide
  simp only [formatSeconds, List.length_append, h1, h2, h3, h4, h5, h6, hs1, hs2, hs3]

/-! ## Lemmas on the parsing of a time -/

theorem digitVal_le (c : UInt8) (h : isDigit c = true) : digitVal c ≤ 9 := by
  simp only [isDigit, Bool.and_eq_true, decide_eq_true_eq] at h
  unfold digitVal
  omega

theorem atoi_foldl_bound (ds : ByteSeq) :
    ∀ acc : Nat, (∀ c ∈ ds, isDigit c = true) →
      ds.foldl (fun acc c => acc * 10 + digitVal c) acc + 1 ≤ (acc + 1) * 10 ^ ds.length := by
  induction ds with
  | nil => intro acc _; simp
  | cons c t ih =>
    intro acc h
    have hc := digitVal_le c (h c (List.mem_cons_self _ _))
    have ht := ih (acc * 10 + digitVal c) (fun x hx => h x (List.mem_cons_of_mem _ hx))
    have hstep : (acc * 10 + digitVal c + 1) * 10 ^ t.length ≤ (acc + 1) * 10 * 10 ^ t.length :=
      Nat.mul_le_mul_right _ (by omega)
    rw [List.foldl_cons, List.length_cons, pow_succ]
    calc List.foldl (fun acc c => acc * 10 + digitVal c) (acc * 10 + digitVal c) t + 1
        ≤ (acc * 10 + digitVal c + 1) * 10 ^ t.length := ht
      _ ≤ (acc + 1) * 10 * 10 ^ t.length := hstep
      _ = (acc + 1) * (10 ^ t.length * 10) := by ring

theorem atoiDigits_lt (ds : ByteSeq) (h : ∀ c ∈ ds, isDigit c = true) :
    atoiDigits ds < 10 ^ ds.length := by
  have := atoi_foldl_bound ds 0 h
  simp only [Nat.zero_add, Nat.one_mul] at this
  exact this

theorem getFrac_lt (value : ByteSeq) : (getFrac value).1 < 1000000000 := by
  unfold getFrac
  split
  · rename_i sep d rest
    split
    · have hk : ∀ c ∈ ((d :: rest).takeWhile isDigit).take 9, isDigit c = true := by
        intro c hc
        exact List.mem_takeWhile_imp (List.mem_of_mem_take hc)
      have hlen : (((d :: rest).takeWhile isDigit).take 9).length ≤ 9 := by
        rw [List.length_take]
        exact Nat.min_le_left _ _
      have hlt := atoiDigits_lt _ hk
      have hmul := Nat.mul_lt_mul_of_pos_right hlt
        (Nat.pos_pow_of_pos (9 - (((d :: rest).takeWhile isDigit).take 9).length)
          (by decide : 0 < 10))
      rw [← pow_add, Nat.add_sub_cancel' hlen] at hmul
      exact hmul
    · show (0 : Nat) < 1000000000
      decide
  · show (0 : Nat) < 1000000000
    decide

theorem Parse_nsec_lt (raw : ByteSeq) (t : Time) (h : Parse raw = some t) :
    t.nsec < 1000000000 := by
  unfold Parse at h
  split at h
  · exact absurd h (by simp)
  · split at h
    · exact absurd h (by simp)
    · split at h
      · exact absurd h (by simp)
      · split at h
        · exact absurd h (by simp)
        · split at h
          · exact absurd h (by simp)
          · have ht := Option.some.inj h
            rw [← ht]
            exact getFrac_lt _

theorem convertTimeZone_year_10000 :
    ConvertTimeZone (str "9999-12-31T23:30:00Z") (some (FixedZone 3600))
      = str "10000-01-01T00:30:00.000000000+01:00" := by
  decide

/-- C10 (as amended): when `raw₁` parses and the timezone is not nil, `ConvertTimeZone`
returns a text made of the date and clock up to the seconds (no period in it), a period,
exactly nine digits, and a zone designator that starts with a non-digit; and two inputs
that parse yield outputs of the same length when the zone has the same offset at both
instants and both converted years lie in 0..9999. -/
theorem convertTimeZone_nine_fraction_digits (raw₁ raw₂ : ByteSeq) (loc : Location)
    (t₁ t₂ : Time) (h₁ : Parse raw₁ = some t₁) (h₂ : Parse raw₂ = some t₂) :
    (∃ pre frac zone, ConvertTimeZone raw₁ (some loc) = pre ++ str "." ++ frac ++ zone
        ∧ (∀ b ∈ pre, b ≠ 46) ∧ frac.length = 9 ∧ (∀ b ∈ frac, isDigit b = true)
        ∧ ∃ z zs, zone = z :: zs ∧ isDigit z = false)
      ∧ (loc.lookup t₁.unix = loc.lookup t₂.unix →
          0 ≤ (t₁.In loc).Year ∧ (t₁.In loc).Year ≤ 9999 →
          0 ≤ (t₂.In loc).Year ∧ (t₂.In loc).Year ≤ 9999 →
          (ConvertTimeZone raw₁ (some loc)).length = (ConvertTimeZone raw₂ (some loc)).length) := by
  have hc₁ : ConvertTimeZone raw₁ (some loc) = (t₁.In loc).Format RFC3339NanoTrailingZeroes := by
    simp [ConvertTimeZone, h₁]
  have hc₂ : ConvertTimeZone raw₂ (some loc) = (t₂.In loc).Format RFC3339NanoTrailingZeroes := by
    simp [ConvertTimeZone, h₂]
  have hfrac : ∀ (raw : ByteSeq) (t : Time), Parse raw = some t →
      (appendInt (((t.In loc).nsec : Nat) : Int) 9).length = 9 := by
    intro raw t h
    have hn := Parse_nsec_lt raw t h
    exact appendInt_length _ 9 (by omega) (by simp only [Time.In]; norm_num; omega) (by decide)
  have htake : ∀ (raw : ByteSeq) (t : Time), Parse raw = some t →
      (appendInt (((t.In loc).nsec : Nat) : Int) 9).take 9
        = appendInt (((t.In loc).nsec : Nat) : Int) 9 := by
    intro raw t h
    exact List.take_of_length_le (le_of_eq (hfrac raw t h))
  constructor
  · refine ⟨formatSeconds (t₁.In loc), appendInt (((t₁.In loc).nsec : Nat) : Int) 9,
      formatZone (t₁.In loc).offset, ?_, formatSeconds_no_period _, hfrac raw₁ t₁ h₁, ?_,
      formatZone_head _⟩
    · rw [hc₁, Format_trailing_zeroes, htake raw₁ t₁ h₁]
    · intro b hb
      exact appendInt_isDigit _ 9 (by omega) b hb
  · intro hoff hy₁ hy₂
    have ho : (t₁.In loc).offset = (t₂.In loc).offset := by
      simpa [Time.offset, Time.In] using hoff
    rw [hc₁, hc₂, Format_trailing_zeroes, Format_trailing_zeroes, htake raw₁ t₁ h₁,
      htake raw₂ t₂ h₂]
    simp only [List.length_append, formatSeconds_length _ hy₁.1 hy₁.2,
      formatSeconds_length _ hy₂.1 hy₂.2, hfrac raw₁ t₁ h₁, hfrac raw₂ t₂ h₂, ho]

/-- C10, witness: `2023-01-01T00:00:00.5Z` and `2023-06-30T12:00:00.123456789+02:00`
converted to the fixed zone UTC+1 have the same length. -/
theorem convertTimeZone_nine_fraction_digits_witness :
    (ConvertTimeZone (str "2023-01-01T00:00:00.5Z") (some (FixedZone 3600))).length
      = (ConvertTimeZone (str "2023-06-30T12:00:00.123456789+02:00")
          (some (FixedZone 3600))).length :=
  (convertTimeZone_nine_fraction_digits (str "2023-01-01T00:00:00.5Z")
    (str "2023-06-30T12:00:00.123456789+02:00") (FixedZone 3600)
    ⟨1672531200, 500000000, FixedZone 0⟩ ⟨1688119200, 123456789, FixedZone 7200⟩
    rfl rfl).2 rfl (by decide) (by decide)

/-- C10, counterexample to the claim as stated: in one and the same timezone, whose offset
is zero in winter and one hour in summer, two inputs that parse are converted to texts of
30 and of 35 bytes. -/
theorem convertTimeZone_lengths_differ :
    (Parse (str "2023-01-01T00:00:00Z")).isSome = true
      ∧ (Parse (str "2023-07-01T00:00:00Z")).isSome = true
      ∧ ConvertTimeZone (str "2023-01-01T00:00:00Z") (some londonIn2023)
          = str "2023-01-01T00:00:00.000000000Z"
      ∧ ConvertTimeZone (str "2023-07-01T00:00:00Z") (some londonIn2023)
          = str "2023-07-01T01:00:00.000000000+01:00"
      ∧ (ConvertTimeZone (str "2023-01-01T00:00:00Z") (some londonIn2023)).length
          ≠ (ConvertTimeZone (str "2023-07-01T00:00:00Z") (some londonIn2023)).length := by
  decide

/-! ## The rendered line as a whole -/

theorem Index_sp_range (s : ByteSeq) :
    Index s [SP] = -1 ∨ (0 ≤ Index s [SP] ∧ Index s [SP] < (s.length : Int)) := by
  rcases split_at_space s with hn | ⟨tok, rest, hs, hns⟩
  · exact Or.inl (Index_sp_none s hn)
  · right
    have hi : Index s [SP] = (tok.length : Int) := by rw [hs]; exact Index_sp_split tok rest hns
    have hl : s.length = tok.length + (rest.length + 1) := by rw [hs]; simp
    rw [hi, hl]
    omega

theorem Render_eq (l : LogItem) (paint : ByteSeq) (showTime : Bool) (tz : Option Location)
    (bb : Buffer) :
    l.Render paint showTime tz bb
      = some (bb ++ timeColumn l showTime tz ++ identityColumns l paint ++ message l) := by
  rcases split_at_space l.Bytes with hn | ⟨tok, rest, hs, hns⟩
  · have hi := Index_sp_none l.Bytes hn
    rw [Render_nospace l paint showTime tz bb hn]
    simp [timeColumn, message, hi]
  · have hi : Index l.Bytes [SP] = (tok.length : Int) := by
      rw [hs]; exact Index_sp_split tok rest hns
    by_cases hne : tok = []
    · subst hne
      rw [Render_leading_space l paint showTime tz bb rest hs]
      simp [timeColumn, message, hi]
    · have hlen : 0 < tok.length := List.length_pos.mpr hne
      have hpos : (tok.length : Int) > 0 := by omega
      have ht : l.Bytes.take tok.length = tok := by rw [hs]; simp
      have hd : l.Bytes.drop (tok.length + 1) = rest := by
        rw [hs]
        simp [List.drop_append_eq_append_drop]
      rw [Render_token l paint showTime tz bb tok rest hs hns hne]
      simp only [timeColumn, message, hi, hpos, Int.toNat_ofNat, ht, hd, and_true, if_true]

theorem GetTimestamp_pos (l : LogItem) (idx : Nat) (h : Index l.Bytes [SP] = (idx : Int))
    (hpos : 0 < idx) : l.GetTimestamp = some (l.Bytes.take idx) := by
  obtain ⟨hsplit, _, hlen, _⟩ := Index_pos_split l.Bytes idx h hpos
  have hlt : ¬ ((idx : Int) < 0) := by omega
  simp only [LogItem.GetTimestamp, h, hlt, if_false]
  have h2 := sliceTo_split (l.Bytes.take idx) (l.Bytes.drop (idx + 1))
  rw [← hsplit, hlen] at h2
  exact h2

/-! ## Claims on the rendered line as a whole -/

/-- C11: scenario 1. For Pod `p1`, Container `c1`, `SingleContainer = false` and the
payload `2023-01-01T00:00:00.000000000Z hello`, `Render` with `showTime = true`, no
timezone and any paint writes into an empty buffer, in this order and nothing else: the
gray bold column with the token and one space, the pod `[p::]p1`, a space and the bold
container `[p::b]c1[-::-] `, and the message `hello`. -/
theorem render_scenario1 (paint : ByteSeq) (isError : Bool) :
    LogItem.Render ⟨str "p1", str "c1", false, str "2023-01-01T00:00:00.000000000Z hello",
        isError⟩ paint true none []
      = some (str "[gray::b]" ++ str "2023-01-01T00:00:00.000000000Z" ++ List.replicate 1 SP
          ++ str "[-::-]"
          ++ (str "[" ++ paint ++ str "::]" ++ str "p1")
          ++ (str " " ++ (str "[" ++ paint ++ str "::b]" ++ str "c1" ++ str "[-::-] "))
          ++ str "hello") := by
  rw [Render_token ⟨str "p1", str "c1", false, str "2023-01-01T00:00:00.000000000Z hello",
    isError⟩ paint true none [] (str "2023-01-01T00:00:00.000000000Z") (str "hello")
    (show str "2023-01-01T00:00:00.000000000Z hello"
      = str "2023-01-01T00:00:00.000000000Z" ++ SP :: str "hello" by decide)
    (by decide) (by decide)]
  have hid : identityColumns ⟨str "p1", str "c1", false,
      str "2023-01-01T00:00:00.000000000Z hello", isError⟩ paint
      = (str "[" ++ paint ++ str "::]" ++ str "p1")
        ++ (str " " ++ (str "[" ++ paint ++ str "::b]" ++ str "c1" ++ str "[-::-] ")) := by
    have hp : str "p1" ≠ [] := by decide
    have hc : str "c1" ≠ [] := by decide
    simp [identityColumns, podColumn, containerColumn, hp, hc]
  have hts : timestampColumn (str "2023-01-01T00:00:00.000000000Z") none
      = str "[gray::b]" ++ str "2023-01-01T00:00:00.000000000Z" ++ List.replicate 1 SP
        ++ str "[-::-]" := by decide
  rw [hid, hts]
  simp

/-- C12: `Render` never aborts. The index of the first space is `-1` or a position of the
payload; whenever `Render` evaluates `Payload[:idx]` and `Payload[idx+1:]`, that is when
`idx > 0`, both slices are within bounds; and `Render` returns an output for every item,
paint, `showTime`, timezone and buffer. -/
theorem render_never_aborts (l : LogItem) (paint : ByteSeq) (showTime : Bool)
    (tz : Option Location) (bb : Buffer) :
    (Index l.Bytes [SP] = -1
        ∨ (0 ≤ Index l.Bytes [SP] ∧ Index l.Bytes [SP] < (l.Bytes.length : Int)))
      ∧ (Index l.Bytes [SP] > 0 →
          (sliceTo l.Bytes (Index l.Bytes [SP])).isSome = true
            ∧ (sliceFrom l.Bytes (Index l.Bytes [SP] + 1)).isSome = true)
      ∧ (l.Render paint showTime tz bb).isSome = true := by
  have hr := Index_sp_range l.Bytes
  refine ⟨hr, ?_, ?_⟩
  · intro hpos
    rcases hr with h | ⟨h0, h1⟩
    · omega
    · have h2 : Index l.Bytes [SP] + 1 ≤ (l.Bytes.length : Int) := by omega
      have h3 : Index l.Bytes [SP] ≤ (l.Bytes.length : Int) := by omega
      have h4 : 0 ≤ Index l.Bytes [SP] + 1 := by omega
      constructor
      · unfold sliceTo
        rw [if_pos ⟨h0, h3⟩]
        rfl
      · unfold sliceFrom
        rw [if_pos ⟨h4, h2⟩]
        rfl
  · rw [Render_eq]
    rfl

/-- C12, witness: the payload ` x`, which starts with a space, and the payload `x `,
which ends with its only space. -/
theorem render_never_aborts_witness :
    (LogItem.Render ⟨[], [], false, str " x", false⟩ (str "blue") true (some UTC) []).isSome
        = true
      ∧ (sliceFrom (str "x ") (Index (str "x ") [SP] + 1)).isSome = true :=
  ⟨(render_never_aborts ⟨[], [], false, str " x", false⟩ (str "blue") true (some UTC) []).2.2,
    ((render_never_aborts ⟨[], [], false, str "x ", false⟩ (str "blue") true (some UTC) []).2.1
      (by decide)).2⟩

/-! ## Claims on the accessors -/

/-- C13: `Size()` is `100 + len(Payload) + len(Pod) + len(Container)`, `IsEmpty()` is true
exactly when the payload has length zero, and an item with a payload of length zero has
`IsEmpty()` true and `Size()` equal to `100 + len(Pod) + len(Container)`. -/
theorem size_and_isEmpty (l : LogItem) :
    l.Size = 100 + (l.Bytes.length : Int) + (l.Pod.length : Int) + (l.Container.length : Int)
      ∧ (l.IsEmpty = true ↔ l.Bytes.length = 0)
      ∧ (l.Bytes.length = 0 →
          l.IsEmpty = true ∧ l.Size = 100 + (l.Pod.length : Int) + (l.Container.length : Int)) := by
  refine ⟨rfl, by simp [LogItem.IsEmpty], ?_⟩
  intro h
  constructor
  · simp [LogItem.IsEmpty, h]
  · simp [LogItem.Size, h]

/-- C13, witness: Pod `p1`, Container `c1`, empty payload. -/
theorem size_and_isEmpty_witness :
    LogItem.IsEmpty ⟨str "p1", str "c1", false, [], false⟩ = true
      ∧ LogItem.Size ⟨str "p1", str "c1", false, [], false⟩
          = 100 + ((str "p1").length : Int) + ((str "c1").length : Int) :=
  (size_and_isEmpty ⟨str "p1", str "c1", false, [], false⟩).2.2 rfl

/-- C14: `ID()` is `Pod` when `Pod` is not empty and `Container` otherwise; it is empty if
and only if both `Pod` and `Container` are empty. -/
theorem id_pod_else_container (l : LogItem) :
    (l.Pod ≠ [] → l.ID = l.Pod) ∧ (l.Pod = [] → l.ID = l.Container)
      ∧ (l.ID = [] ↔ l.Pod = [] ∧ l.Container = []) := by
  unfold LogItem.ID
  by_cases hp : l.Pod = []
  · simp [hp]
  · simp [hp]

/-- C14, witness: Pod `p1` with Container `c1`, and an empty Pod with Container `c1`. -/
theorem id_pod_else_container_witness :
    LogItem.ID ⟨str "p1", str "c1", false, [], false⟩ = str "p1"
      ∧ LogItem.ID ⟨[], str "c1", false, [], false⟩ = str "c1" :=
  ⟨(id_pod_else_container ⟨str "p1", str "c1", false, [], false⟩).1 (by decide),
    (id_pod_else_container ⟨[], str "c1", false, [], false⟩).2.1 rfl⟩

/-- C15: the end-of-stream item `ItemEOF` reports `IsEmpty() = true` and `ID() = ""`. -/
theorem itemEOF_empty : ItemEOF.IsEmpty = true ∧ ItemEOF.ID = [] := by
  constructor
  · rfl
  · rfl

/-! ## Claims on the structure of the rendered line -/

/-- C16: `Render` only appends to the buffer, and what it appends depends only on the item
and the parameters: there is one text `r`, the one `Render` writes into an empty buffer,
such that for every prior content `b` the buffer afterwards is `b ++ r`; so two renderings
of one item with the same parameters into empty buffers both yield `r`. -/
theorem render_appends (l : LogItem) (paint : ByteSeq) (showTime : Bool)
    (tz : Option Location) :
    ∃ r, l.Render paint showTime tz [] = some r
      ∧ ∀ b : Buffer, l.Render paint showTime tz b = some (b ++ r) := by
  refine ⟨timeColumn l showTime tz ++ identityColumns l paint ++ message l, ?_, ?_⟩
  · rw [Render_eq]
    simp
  · intro b
    rw [Render_eq]
    simp

/-- C17: the text `Render` appends is the timestamp column and the identity columns
followed by the message and nothing after it; the message is the payload after the first
space when that space is at an index above zero, and the whole payload otherwise, also
when the payload starts with a space. -/
theorem render_message_part (l : LogItem) (paint : ByteSeq) (showTime : Bool)
    (tz : Option Location) (bb : Buffer) :
    l.Render paint showTime tz bb
        = some (bb ++ (timeColumn l showTime tz ++ identityColumns l paint)
            ++ (if Index l.Bytes [SP] > 0 then l.Bytes.drop ((Index l.Bytes [SP]).toNat + 1)
                else l.Bytes))
      ∧ (∀ rest, l.Bytes = SP :: rest →
          l.Render paint showTime tz bb = some (bb ++ identityColumns l paint ++ (SP :: rest))) := by
  constructor
  · rw [Render_eq]
    simp [message]
  · intro rest h
    rw [Render_leading_space l paint showTime tz bb rest h, h]

/-- C17, witness: the payload ` x` starts with a space and is written whole. -/
theorem render_message_part_witness :
    LogItem.Render ⟨[], [], false, str " x", false⟩ (str "blue") true none (str ">")
      = some (str ">" ++ identityColumns ⟨[], [], false, str " x", false⟩ (str "blue")
          ++ (SP :: str "x")) :=
  (render_message_part ⟨[], [], false, str " x", false⟩ (str "blue") true none (str ">")).2
    (str "x") (by decide)

/-- C18: between the timestamp column and the message `Render` writes: (1) when
`SingleContainer` is false and `Container` is not empty, `[p::]Pod`, a space and
`[p::b]Container[-::-] ` if `Pod` is not empty, and only `[p::b]Container[-::-] ` if `Pod`
is empty; (2) otherwise, when `Pod` is not empty, `[p::]Pod` and the spacer `[-::] `;
(3) otherwise nothing. -/
theorem render_identity_columns (l : LogItem) (paint : ByteSeq) (showTime : Bool)
    (tz : Option Location) (bb : Buffer) :
    ∃ cols, l.Render paint showTime tz bb
        = some (bb ++ timeColumn l showTime tz ++ cols ++ message l)
      ∧ renderContainer l paint (renderPod l paint bb) = bb ++ cols
      ∧ (l.SingleContainer = false ∧ l.Container ≠ [] → l.Pod ≠ [] →
          cols = str "[" ++ paint ++ str "::]" ++ l.Pod ++ str " " ++ str "[" ++ paint
            ++ str "::b]" ++ l.Container ++ str "[-::-] ")
      ∧ (l.SingleContainer = false ∧ l.Container ≠ [] → l.Pod = [] →
          cols = str "[" ++ paint ++ str "::b]" ++ l.Container ++ str "[-::-] ")
      ∧ (¬ (l.SingleContainer = false ∧ l.Container ≠ []) → l.Pod ≠ [] →
          cols = str "[" ++ paint ++ str "::]" ++ l.Pod ++ str "[-::] ")
      ∧ (¬ (l.SingleContainer = false ∧ l.Container ≠ []) → l.Pod = [] → cols = []) := by
  refine ⟨identityColumns l paint, Render_eq l paint showTime tz bb,
    render_identity l paint bb, ?_, ?_, ?_, ?_⟩
  · intro hc hp
    simp [identityColumns, podColumn, containerColumn, hc, hp]
  · intro hc hp
    simp [identityColumns, podColumn, containerColumn, hc, hp]
  · intro hc hp
    simp only [identityColumns, podColumn, containerColumn, if_neg hc, if_pos hp]
  · intro hc hp
    simp only [identityColumns, podColumn, containerColumn, if_neg hc, hp, ne_eq,
      not_true_eq_false, if_false, List.append_nil]

/-- C18, witness: Pod `p1` with `SingleContainer = true` gets the pod column and the
spacer; Pod `p1` with Container `c1` gets both columns. -/
theorem render_identity_columns_witness :
    (∃ cols, renderContainer ⟨str "p1", str "c1", true, str "x", false⟩ (str "blue")
          (renderPod ⟨str "p1", str "c1", true, str "x", false⟩ (str "blue") []) = [] ++ cols
        ∧ cols = str "[blue::]p1[-::] ")
      ∧ (∃ cols, renderContainer ⟨str "p1", str "c1", false, str "x", false⟩ (str "blue")
          (renderPod ⟨str "p1", str "c1", false, str "x", false⟩ (str "blue") []) = [] ++ cols
        ∧ cols = str "[blue::]p1 [blue::b]c1[-::-] ") := by
  constructor
  · obtain ⟨cols, _, h2, _, _, h5, _⟩ :=
      render_identity_columns ⟨str "p1", str "c1", true, str "x", false⟩ (str "blue") true none []
    exact ⟨cols, h2, (h5 (by decide) (by decide)).trans (by decide)⟩
  · obtain ⟨cols, _, h2, h3, _, _, _⟩ :=
      render_identity_columns ⟨str "p1", str "c1", false, str "x", false⟩ (str "blue") true none []
    exact ⟨cols, h2, (h3 (by decide) (by decide)).trans (by decide)⟩

/-- C19: `showTime` only adds the timestamp column. The output with `showTime = true` is
the timestamp column, which is there exactly when the first space of the payload is at an
index above zero, followed by the output with `showTime = false`; and with
`showTime = false` a payload `token ++ " " ++ rest` with a non-empty token is rendered as
the identity columns followed by `rest` only. -/
theorem render_showTime_adds_column (l : LogItem) (paint : ByteSeq) (tz : Option Location)
    (bb : Buffer) :
    (∃ col r, l.Render paint false tz [] = some r
        ∧ l.Render paint true tz bb = some (bb ++ col ++ r)
        ∧ (Index l.Bytes [SP] > 0 →
            col = timestampColumn (l.Bytes.take (Index l.Bytes [SP]).toNat) tz)
        ∧ (¬ Index l.Bytes [SP] > 0 → col = []))
      ∧ (∀ tok rest, l.Bytes = tok ++ SP :: rest → SP ∉ tok → tok ≠ [] →
          l.Render paint false tz bb = some (bb ++ identityColumns l paint ++ rest)) := by
  constructor
  · refine ⟨timeColumn l true tz, identityColumns l paint ++ message l, ?_, ?_, ?_, ?_⟩
    · rw [Render_eq]
      simp [timeColumn]
    · rw [Render_eq]
      simp
    · intro h
      simp [timeColumn, h]
    · intro h
      simp [timeColumn, h]
  · intro tok rest h hs hne
    rw [Render_token l paint false tz bb tok rest h hs hne]
    simp

/-- C19, witness: with `showTime = false` the payload `tok rest` is rendered as `rest`. -/
theorem render_showTime_adds_column_witness :
    LogItem.Render ⟨[], [], false, str "tok rest", false⟩ (str "blue") false none (str ">")
      = some (str ">" ++ identityColumns ⟨[], [], false, str "tok rest", false⟩ (str "blue")
          ++ str "rest") :=
  (render_showTime_adds_column ⟨[], [], false, str "tok rest", false⟩ (str "blue") none
    (str ">")).2 (str "tok") (str "rest") (by decide) (by decide) (by decide)

/-- C20: when the first space of the payload is at index `idx > 0`, `GetTimestamp()`, a
space and the message bytes `Payload[idx+1:]` put together are the payload, and with no
timezone the token in the timestamp column is `GetTimestamp()`. -/
theorem split_loses_nothing (l : LogItem) (paint : ByteSeq) (bb : Buffer) (idx : Nat)
    (hidx : Index l.Bytes [SP] = (idx : Int)) (hpos : 0 < idx) :
    ∃ ts msg, l.GetTimestamp = some ts ∧ sliceFrom l.Bytes ((idx : Int) + 1) = some msg
      ∧ ts ++ str " " ++ msg = l.Bytes
      ∧ l.Render paint true none bb
          = some (bb ++ (str "[gray::b]" ++ ts ++ str " " ++ List.replicate (30 - idx) SP
              ++ str "[-::-]") ++ identityColumns l paint ++ msg) := by
  obtain ⟨hsplit, hns, hlen, hne⟩ := Index_pos_split l.Bytes idx hidx hpos
  refine ⟨l.Bytes.take idx, l.Bytes.drop (idx + 1), GetTimestamp_pos l idx hidx hpos, ?_, ?_, ?_⟩
  · have h2 := sliceFrom_split (l.Bytes.take idx) (l.Bytes.drop (idx + 1))
    rw [← hsplit, hlen] at h2
    exact h2
  · have hsp : str " " = [SP] := rfl
    rw [hsp, List.append_assoc, List.singleton_append]
    exact hsplit.symm
  · rw [Render_token l paint true none bb _ _ hsplit hns hne]
    simp only [timestampColumn, ConvertTimeZone, hlen, if_true]

/-- C20, witness: the payload `2023-01-01T00:00:00.5Z hello`, first space at index 22. -/
theorem split_loses_nothing_witness :
    ∃ ts msg, LogItem.GetTimestamp ⟨[], [], false, str "2023-01-01T00:00:00.5Z hello", false⟩
        = some ts
      ∧ sliceFrom (str "2023-01-01T00:00:00.5Z hello") ((22 : Nat) + 1 : Int) = some msg
      ∧ ts ++ str " " ++ msg = str "2023-01-01T00:00:00.5Z hello"
      ∧ LogItem.Render ⟨[], [], false, str "2023-01-01T00:00:00.5Z hello", false⟩ (str "blue")
          true none []
          = some ([] ++ (str "[gray::b]" ++ ts ++ str " " ++ List.replicate (30 - 22) SP
              ++ str "[-::-]")
            ++ identityColumns ⟨[], [], false, str "2023-01-01T00:00:00.5Z hello", false⟩
                (str "blue") ++ msg) :=
  split_loses_nothing ⟨[], [], false, str "2023-01-01T00:00:00.5Z hello", false⟩ (str "blue") []
    22 (by decide) (by decide)

end dao
